import Mathlib

/-!
Verification of the SubZero bridge layer against its specification.

This file gives a shallow embedding of the two core subsystems of the
repository and proves (or refutes) the spec's claims about them:

* the tool-call mini-language scanner `parse_tool_calls` / `_parse_params`
  of `sz_runtime.py` (modelled here by `parse_tool_calls` over `Str`, the
  character-list representation of Python `str`);
* the tool registry, safety tiers, and `ToolRuntime.execute` /
  `ToolRuntime.execute_all` of `sz_runtime.py` (modelled by `executeRT` /
  `executeAllRT`, with the side-effecting tool handler bodies abstracted
  into a handler-map parameter, and Python exceptions modelled by
  `Except PyErr`);
* the `CommBridge` connection bridge of `custom_terminal.py`
  (`send_message`, `_dispatch`, `_drain_queue`, `retry_queue`, and one
  iteration of `_heartbeat_loop`), modelled by explicit state passing on
  `BridgeState` with callback firings recorded as `BridgeEvent` values.

Strings are modelled as `List Char` (`Str`), with `\w` and `\s` of the
Python regular-expression engine modelled over their ASCII meaning, which
covers every string the claims mention.  Machine wall-clock time, thread
scheduling and the tkinter UI are outside the embedding; a dispatch is
modelled as the completed unit of work it spawns, and the agent
collaborator (`agent.chat` / `agent.is_ollama_running`) is an explicit
oracle parameter.
-/

/-- Python strings, modelled as lists of characters. -/
abbrev Str := List Char

/-- Python `str.isspace` characters relevant to `str.strip()`,
`str.split(None)` and the regex class `\s`, over ASCII: space, tab,
newline, carriage return, vertical tab, form feed, and the separator
control characters `\x1c`-`\x1f`. -/
def isPySpace (c : Char) : Bool :=
  c = ' ' || c = '\t' || c = '\n' || c = '\r' || c = Char.ofNat 11 || c = Char.ofNat 12 ||
  c = Char.ofNat 28 || c = Char.ofNat 29 || c = Char.ofNat 30 || c = Char.ofNat 31

/-- The regex class `\w` over ASCII: letters, digits, underscore. -/
def isWordChar (c : Char) : Bool :=
  c.isAlphanum || c = '_'

/-- Python `str.strip()`: drop leading and trailing whitespace. -/
def pyStrip (s : Str) : Str :=
  ((s.dropWhile isPySpace).reverse.dropWhile isPySpace).reverse

/-- Python `text.split("\n")`: split on every newline, keeping empty
pieces; the empty string yields `[""]`. -/
def pySplitNL : Str → List Str
  | [] => [[]]
  | c :: s =>
    if c = '\n' then [] :: pySplitNL s
    else
      match pySplitNL s with
      | [] => [[c]]
      | l :: ls => (c :: l) :: ls

/-- Python `str.startswith`. -/
def pyStartsWith (pre s : Str) : Bool :=
  pre.isPrefixOf s

/-- Python `s.split(None, 1)`: strip leading whitespace, take the first
maximal non-whitespace token, then the remainder with its leading
whitespace stripped; returns `[]`, `[tok]` or `[tok, rest]`. -/
def pySplitNone1 (s : Str) : List Str :=
  let s1 := s.dropWhile isPySpace
  if s1 = [] then []
  else
    let tok := s1.takeWhile (fun c => !isPySpace c)
    let rest := (s1.dropWhile (fun c => !isPySpace c)).dropWhile isPySpace
    if rest = [] then [tok] else [tok, rest]

/-- Python two-character `str.replace([a,b], [r])` used by the
parameter-value unescaping: left-to-right, non-overlapping. -/
def pyUnescapePairs (a b r : Char) : Str → Str
  | [] => []
  | [c] => [c]
  | c1 :: c2 :: s =>
    if c1 = a ∧ c2 = b then r :: pyUnescapePairs a b r s
    else c1 :: pyUnescapePairs a b r (c2 :: s)

/-- The unescaping chain of `_parse_params`:
`value.replace("\\n", "\n").replace("\\t", "\t").replace('\\"', '"')`. -/
def unescapeValue (v : Str) : Str :=
  pyUnescapePairs '\\' '"' '"' (pyUnescapePairs '\\' 't' '\t' (pyUnescapePairs '\\' 'n' '\n' v))

/-- Matching of the quoted-value regex alternative
`"((?:[^"\\]|\\.)*)"` (resp. the single-quote variant) after its opening
quote `q`: the starred group takes a backslash-escape pair (whose second
character may not be a newline, since `.` does not match `\n`) or a
single character other than `q` and backslash, and the first unescaped
`q` closes the value.  Returns the raw group contents and the remainder
after the closing quote; `none` when the value is unterminated (no
backtracking can rescue the alternative, as no backtrack position holds
an unescaped quote). -/
def matchQuoted (q : Char) : Str → Option (Str × Str)
  | [] => none
  | c :: s =>
    if c = q then some ([], s)
    else if c = '\\' then
      match s with
      | [] => none
      | d :: s2 =>
        if d = '\n' then none
        else
          match matchQuoted q s2 with
          | some pr => some (c :: d :: pr.1, pr.2)
          | none => none
    else
      match matchQuoted q s with
      | some pr => some (c :: pr.1, pr.2)
      | none => none

/-- The bareword regex alternative `(\S+)`: a maximal nonempty run of
non-whitespace characters. -/
def matchBare (s : Str) : Option (Str × Str) :=
  let tok := s.takeWhile (fun c => !isPySpace c)
  if tok = [] then none else some (tok, s.drop tok.length)

/-- The value alternation of the `_parse_params` regex:
`(?:"((?:[^"\\]|\\.)*)"|'((?:[^'\\]|\\.)*)'|(\S+))`, tried in order. -/
def matchValue (s : Str) : Option (Str × Str) :=
  match s with
  | [] => none
  | c :: s4 =>
    if c = '"' then
      match matchQuoted '"' s4 with
      | some pr => some pr
      | none => matchBare s
    else if c = Char.ofNat 39 then
      match matchQuoted (Char.ofNat 39) s4 with
      | some pr => some pr
      | none => matchBare s
    else matchBare s

/-- One anchored attempt of the `_parse_params` pattern
`(\w+)\s*=\s*(?:"..."|'...'|\S+)` at the start of `s`: greedy `\w+` key,
optional whitespace, a literal `=`, optional whitespace, then the value
alternation (the greedy prefix needs no backtracking because `\w`, `\s`
and `=` are mutually exclusive).  Returns key, raw value and the
remainder after the match. -/
def matchAt (s : Str) : Option (Str × Str × Str) :=
  let key := s.takeWhile isWordChar
  if key = [] then none
  else
    let s1 := (s.drop key.length).dropWhile isPySpace
    match s1 with
    | [] => none
    | c :: s2 =>
      if c = '=' then
        let s3 := s2.dropWhile isPySpace
        match matchValue s3 with
        | some pr => some (key, pr.1, pr.2)
        | none => none
      else none

/-- Python `re.finditer` over the `_parse_params` pattern: leftmost
non-overlapping matches, advancing one character past failed attempt
positions.  Fuelled with one unit per consumed character; any fuel of at
least `s.length` yields the loop's value (`findIterF_fuel`). -/
def findIterF : Nat → Str → List (Str × Str)
  | 0, _ => []
  | Nat.succ fuel, s =>
    match matchAt s with
    | some m => (m.1, m.2.1) :: findIterF fuel m.2.2
    | none =>
      match s with
      | [] => []
      | _ :: t => findIterF fuel t

/-- Python dict assignment `params[key] = value`: replace in place when
the key is present (keeping its insertion position), append otherwise. -/
def dictInsert (m : List (Str × Str)) (k v : Str) : List (Str × Str) :=
  match m with
  | [] => [(k, v)]
  | (k2, v2) :: rest => if k2 = k then (k2, v) :: rest else (k2, v2) :: dictInsert rest k v

/-- Model of `_parse_params` of `sz_runtime.py`: scan the parameter text
with the key=value regex, unescape each matched value, and fold the
matches into a params map with dict-assignment semantics. -/
def pyParseParams (paramStr : Str) : List (Str × Str) :=
  if paramStr = [] then []
  else
    (findIterF (paramStr.length + 1) paramStr).foldl
      (fun m kv => dictInsert m kv.1 (unescapeValue kv.2)) []

/-- Model of the `ToolCall` dataclass of `sz_runtime.py`. -/
structure ToolCall where
  name : Str
  params : List (Str × Str)
  raw : Str
deriving DecidableEq

/-- The inner fenced-block collection loop of `parse_tool_calls`: gather
lines until one whose stripped form starts with a fence marker, and
return (collected block lines, remainder beginning at the closing fence
line, or empty when the block is unterminated). -/
def collectBlock : List Str → List Str × List Str
  | [] => ([], [])
  | l :: ls =>
    if pyStartsWith ("```".toList) (pyStrip l) then ([], l :: ls)
    else
      let r := collectBlock ls
      (l :: r.1, r.2)

/-- Python `"\n".join`. -/
def joinNL : List Str → Str
  | [] => []
  | [l] => l
  | l :: l2 :: ls => l ++ '\n' :: joinNL (l2 :: ls)

/-- The line-scanning loop of `parse_tool_calls` of `sz_runtime.py`,
recursing over the list of lines: a stripped line starting with
`@tool ` yields a call whose name is the first whitespace token of the
remainder and whose params come from the rest of the line; when the
next line starts a fenced block, the block's lines are joined and
assigned to `params["content"]`, and scanning resumes after the closing
fence.  Fuelled with one unit per directive line; any fuel of at least
the number of lines yields the loop's value (`parseLoopF_fuel`). -/
def parseLoopF : Nat → List Str → List ToolCall
  | 0, _ => []
  | Nat.succ fuel, lines =>
    match lines with
    | [] => []
    | l :: rest =>
      let line := pyStrip l
      if pyStartsWith ("@tool ".toList) line then
        match pySplitNone1 (pyStrip (line.drop 6)) with
        | [] => parseLoopF fuel rest
        | nm :: more =>
          let paramStr := match more with
            | [] => ([] : Str)
            | p :: _ => p
          match rest with
          | next :: rest2 =>
            if pyStartsWith ("```".toList) (pyStrip next) then
              let blk := collectBlock rest2
              ToolCall.mk nm
                  (dictInsert (pyParseParams paramStr) ("content".toList) (joinNL blk.1)) line
                :: parseLoopF fuel (blk.2.drop 1)
            else
              ToolCall.mk nm (pyParseParams paramStr) line :: parseLoopF fuel rest
          | [] =>
            ToolCall.mk nm (pyParseParams paramStr) line :: parseLoopF fuel ([] : List Str)
      else parseLoopF fuel rest

/-- Model of `parse_tool_calls` of `sz_runtime.py`: split the text on
newlines and run the scanning loop (one fuel unit per line suffices,
see `parseLoopF_fuel`). -/
def parse_tool_calls (text : Str) : List ToolCall :=
  parseLoopF (pySplitNL text).length (pySplitNL text)

/-- Model of the `ToolResult` dataclass of `sz_runtime.py`
(`success, output="", data=None, tool_name="", needs_confirm=False`);
the `Any`-typed `data` payload is modelled as an optional string. -/
structure ToolResult where
  success : Bool
  output : Str
  data : Option Str
  tool_name : Str
  needs_confirm : Bool
deriving DecidableEq

/-- Safety tier constant `TIER_AUTO = "auto"`. -/
def TIER_AUTO : Str := "auto".toList

/-- Safety tier constant `TIER_LOG = "log"`. -/
def TIER_LOG : Str := "log".toList

/-- Safety tier constant `TIER_CONFIRM = "confirm"`. -/
def TIER_CONFIRM : Str := "confirm".toList

/-- The `TOOL_TIERS` dict of `sz_runtime.py`, in source order. -/
def TOOL_TIERS : List (Str × Str) :=
  [ ("run_command".toList, TIER_LOG),
    ("run_python".toList, TIER_LOG),
    ("file_read".toList, TIER_AUTO),
    ("file_write".toList, TIER_LOG),
    ("file_append".toList, TIER_LOG),
    ("file_list".toList, TIER_AUTO),
    ("file_delete".toList, TIER_CONFIRM),
    ("web_search".toList, TIER_AUTO),
    ("web_get".toList, TIER_AUTO),
    ("web_post".toList, TIER_CONFIRM),
    ("browser_open".toList, TIER_LOG),
    ("browser_click".toList, TIER_LOG),
    ("browser_type".toList, TIER_LOG),
    ("browser_read".toList, TIER_AUTO),
    ("browser_screenshot".toList, TIER_AUTO),
    ("browser_wait".toList, TIER_AUTO),
    ("browser_close".toList, TIER_LOG),
    ("clipboard_copy".toList, TIER_LOG),
    ("clipboard_paste".toList, TIER_AUTO),
    ("open_app".toList, TIER_CONFIRM),
    ("trade_quote".toList, TIER_AUTO),
    ("trade_buy".toList, TIER_CONFIRM),
    ("trade_sell".toList, TIER_CONFIRM),
    ("trade_positions".toList, TIER_AUTO),
    ("trade_portfolio".toList, TIER_AUTO),
    ("trade_history".toList, TIER_AUTO),
    ("trade_cancel".toList, TIER_CONFIRM),
    ("trade_watchlist".toList, TIER_AUTO),
    ("deploy_to_usb".toList, TIER_LOG),
    ("download_subzero".toList, TIER_LOG),
    ("detect_usb".toList, TIER_AUTO) ]

/-- The key set of the `TOOLS` registry dict of `sz_runtime.py`, in
source order; the `(description, schema, handler)` values are
side-effecting and are abstracted into the handler-map parameter of
`executeRT`. -/
def TOOLS_KEYS : List Str :=
  [ "run_command".toList, "run_python".toList, "file_read".toList,
    "file_write".toList, "file_append".toList, "file_list".toList,
    "file_delete".toList, "web_search".toList, "web_get".toList,
    "web_post".toList, "browser_open".toList, "browser_click".toList,
    "browser_type".toList, "browser_read".toList, "browser_screenshot".toList,
    "browser_wait".toList, "browser_close".toList, "clipboard_copy".toList,
    "clipboard_paste".toList, "open_app".toList, "trade_quote".toList,
    "trade_buy".toList, "trade_sell".toList, "trade_positions".toList,
    "trade_portfolio".toList, "trade_history".toList, "trade_cancel".toList,
    "trade_watchlist".toList, "deploy_to_usb".toList, "download_subzero".toList,
    "detect_usb".toList ]

/-- Python `TOOL_TIERS.get(name, default)`. -/
def lookupD (m : List (Str × Str)) (k d : Str) : Str :=
  match m with
  | [] => d
  | (k2, v) :: rest => if k2 = k then v else lookupD rest k d

/-- Python exceptions that escape the modelled code. -/
inductive PyErr where
  | typeError (msg : Str)
deriving DecidableEq

/-- The message of the `TypeError` raised by the
`ToolResult(False, "", tool_name=..., needs_confirm=True, output=...)`
constructor calls in `ToolRuntime.execute`, which pass `output` both
positionally (`""`) and by keyword. -/
def TYPE_ERROR_DUP_OUTPUT : Str :=
  "TypeError: ToolResult.init got multiple values for argument output".toList

/-- The mutable state of a `ToolRuntime` instance (`auto_trade`,
`execution_log`, `max_iterations`). -/
structure ToolRuntimeState where
  auto_trade : Bool
  execution_log : List ToolResult
  max_iterations : Nat
deriving DecidableEq

/-- `ToolRuntime.__init__(auto_trade)`. -/
def mkToolRuntime (autoTrade : Bool) : ToolRuntimeState :=
  ⟨autoTrade, [], 5⟩

/-- The trading mutation tool names checked by the `auto_trade`
carve-out in `ToolRuntime.execute`. -/
def TRADE_MUTATIONS : List Str :=
  [ "trade_buy".toList, "trade_sell".toList, "trade_cancel".toList ]

/-- Invoking a registered handler (`func(call.params)`) and appending
the result to the execution log; the third component records which
handlers were invoked. -/
def runToolHandler (handlers : Str → List (Str × Str) → ToolResult)
    (rt : ToolRuntimeState) (call : ToolCall) :
    ToolResult × ToolRuntimeState × List Str :=
  let r := handlers call.name call.params
  (r, { rt with execution_log := rt.execution_log ++ [r] }, [call.name])

/-- Model of `ToolRuntime.execute` of `sz_runtime.py`.  Handler bodies
are abstracted into `handlers`; the returned `List Str` records the
names of the handlers actually invoked.  The two confirmation-needed
branches construct
`ToolResult(False, "", tool_name=call.name, needs_confirm=True, output=f"...")`,
which passes `output` both positionally and by keyword and therefore
raises `TypeError` in Python; those branches are modelled as
`Except.error`. -/
def executeRT (handlers : Str → List (Str × Str) → ToolResult)
    (rt : ToolRuntimeState) (call : ToolCall) (skipConfirm : Bool) :
    Except PyErr (ToolResult × ToolRuntimeState × List Str) :=
  if !(TOOLS_KEYS.contains call.name) then
    Except.ok
      (⟨false, ("Unknown tool: ".toList) ++ call.name, none, call.name, false⟩, rt, [])
  else
    let tier := lookupD TOOL_TIERS call.name TIER_CONFIRM
    if tier = TIER_CONFIRM ∧ skipConfirm = false then
      if pyStartsWith ("trade_".toList) call.name ∧ call.name ∈ TRADE_MUTATIONS then
        if rt.auto_trade = false then
          Except.error (PyErr.typeError TYPE_ERROR_DUP_OUTPUT)
        else
          Except.ok (runToolHandler handlers rt call)
      else
        Except.error (PyErr.typeError TYPE_ERROR_DUP_OUTPUT)
    else
      Except.ok (runToolHandler handlers rt call)

/-- Model of `ToolRuntime.execute_all` of `sz_runtime.py`: execute the
calls in order, collecting results; an exception raised by `execute`
propagates (there is no try/except around the loop body). -/
def executeAllRT (handlers : Str → List (Str × Str) → ToolResult)
    (rt : ToolRuntimeState) (calls : List ToolCall) (skipConfirm : Bool) :
    Except PyErr (List ToolResult × ToolRuntimeState × List Str) :=
  match calls with
  | [] => Except.ok ([], rt, [])
  | c :: cs =>
    match executeRT handlers rt c skipConfirm with
    | Except.error e => Except.error e
    | Except.ok (r, rt2, inv) =>
      match executeAllRT handlers rt2 cs skipConfirm with
      | Except.error e => Except.error e
      | Except.ok (rs, rt3, invs) => Except.ok (r :: rs, rt3, inv ++ invs)

/-- Connection state constant `CommBridge.CONNECTED`. -/
def CONNECTED : Str := "connected".toList

/-- Connection state constant `CommBridge.DISCONNECTED`. -/
def DISCONNECTED : Str := "disconnected".toList

/-- Connection state constant `CommBridge.RECONNECTING`. -/
def RECONNECTING : Str := "reconnecting".toList

/-- Connection state constant `CommBridge.CHECKING`. -/
def CHECKING : Str := "checking".toList

/-- A queued message `{"prompt": ..., "callback": ...}`; the opaque
callback closure is modelled by an optional identifier. -/
structure QueueEntry where
  prompt : Str
  callback : Option Nat
deriving DecidableEq

/-- One outcome of a call to `agent.chat(prompt)`: a normal reply, a
reply accompanied by `agent.last_error` being set, or a raised
exception. -/
inductive ChatOutcome where
  | ok (resp : Str)
  | err (resp : Str) (e : Str)
  | exn (e : Str)
deriving DecidableEq

/-- A callback firing of the bridge (the model assumes every `on_*`
callback slot is registered, which is when the Python code fires it). -/
inductive BridgeEvent where
  | statusChange (old new : Str)
  | messageQueued (prompt : Str) (size : Nat)
  | messageDelivered (prompt resp : Str)
  | messageFailed (prompt e : Str)
  | queueDrained (n : Nat)
  | callbackInvoked (cb : Nat) (resp : Option Str) (e : Option Str)
deriving DecidableEq

/-- The mutable state of a `CommBridge` shared by the heartbeat loop and
dispatches: status string, counters, and the `deque(maxlen=50)` message
queue.  `chat_calls` indexes the next `agent.chat` invocation into the
chat oracle (`last_status` is never read by the source and
`last_check_time` is wall-clock only; both are omitted). -/
structure BridgeState where
  status : Str
  consecutive_failures : Nat
  total_messages_sent : Nat
  total_messages_failed : Nat
  message_queue : List QueueEntry
  chat_calls : Nat
deriving DecidableEq

/-- `deque.append` with `maxlen`: append on the right, then evict from
the left while over capacity. -/
def pyDequeAppend (cap : Nat) (q : List QueueEntry) (e : QueueEntry) : List QueueEntry :=
  let q2 := q ++ [e]
  if cap < q2.length then q2.drop (q2.length - cap) else q2

/-- `deque.appendleft` with `maxlen`: prepend on the left, then evict
from the right while over capacity. -/
def pyDequeAppendLeft (cap : Nat) (q : List QueueEntry) (e : QueueEntry) : List QueueEntry :=
  let q2 := e :: q
  if cap < q2.length then q2.take cap else q2

/-- The invocation of an entry's `callback(response, error)`, when one
is registered. -/
def cbEvent : Option Nat → Option Str → Option Str → List BridgeEvent
  | none, _, _ => []
  | some c, r, e => [BridgeEvent.callbackInvoked c r e]

/-- Model of `CommBridge._dispatch` of `custom_terminal.py`: one
completed `agent.chat` call (drawn from the oracle at index
`chat_calls`) with its callback firings and counter updates. -/
def dispatch (agent : Nat → ChatOutcome) (s : BridgeState) (prompt : Str)
    (cb : Option Nat) : BridgeState × List BridgeEvent :=
  let o := agent s.chat_calls
  let s1 := { s with chat_calls := s.chat_calls + 1 }
  match o with
  | ChatOutcome.ok resp =>
    (s1, BridgeEvent.messageDelivered prompt resp :: cbEvent cb (some resp) none)
  | ChatOutcome.err resp e =>
    ({ s1 with total_messages_failed := s1.total_messages_failed + 1 },
     BridgeEvent.messageFailed prompt e :: cbEvent cb (some resp) (some e))
  | ChatOutcome.exn e =>
    ({ s1 with total_messages_failed := s1.total_messages_failed + 1 },
     BridgeEvent.messageFailed prompt e :: cbEvent cb none (some e))

/-- Model of `CommBridge.send_message` of `custom_terminal.py`: when
Disconnected, enqueue (subject to the 50-entry cap) and return
`"queued"`; otherwise count the send, dispatch (the spawned worker
thread is modelled as its completed run), and return `"sent"`. -/
def sendMessage (agent : Nat → ChatOutcome) (s : BridgeState) (prompt : Str)
    (cb : Option Nat) : BridgeState × List BridgeEvent × Str :=
  if s.status = DISCONNECTED then
    let q2 := pyDequeAppend 50 s.message_queue ⟨prompt, cb⟩
    ({ s with message_queue := q2 },
     [BridgeEvent.messageQueued prompt q2.length], "queued".toList)
  else
    let s2 := { s with total_messages_sent := s.total_messages_sent + 1 }
    let r := dispatch agent s2 prompt cb
    (r.1, r.2, "sent".toList)

/-- The while loop of `CommBridge._drain_queue`, recursing on the queue
with the chat oracle index `k`: pop the front entry, attempt delivery,
and on a failed or raising `chat` push the entry back on the front and
stop.  Returns (delivered count, final queue, events, next oracle
index). -/
def drainGo (agent : Nat → ChatOutcome) : List QueueEntry → Nat → Nat × List QueueEntry × List BridgeEvent × Nat
  | [], k => (0, [], [], k)
  | msg :: rest, k =>
    match agent k with
    | ChatOutcome.ok resp =>
      let r := drainGo agent rest (k + 1)
      (r.1 + 1, r.2.1,
        BridgeEvent.messageDelivered msg.prompt resp
          :: (cbEvent msg.callback (some resp) none ++ r.2.2.1),
        r.2.2.2)
    | ChatOutcome.err _ _ => (0, pyDequeAppendLeft 50 rest msg, [], k + 1)
    | ChatOutcome.exn _ => (0, pyDequeAppendLeft 50 rest msg, [], k + 1)

/-- Model of `CommBridge._drain_queue` of `custom_terminal.py`: run the
drain loop and, when at least one entry was delivered, fire
`on_queue_drained(delivered)`. -/
def drainQueue (agent : Nat → ChatOutcome) (s : BridgeState) : BridgeState × List BridgeEvent :=
  let r := drainGo agent s.message_queue s.chat_calls
  ({ s with message_queue := r.2.1, chat_calls := r.2.2.2 },
   r.2.2.1 ++ (if 0 < r.1 then [BridgeEvent.queueDrained r.1] else []))

/-- Model of `CommBridge.retry_queue` of `custom_terminal.py`: drain now
(if anything is queued) and return how many entries were removed. -/
def retryQueue (agent : Nat → ChatOutcome) (s : BridgeState) :
    BridgeState × List BridgeEvent × Nat :=
  if s.message_queue = [] then (s, [], 0)
  else
    let before := s.message_queue.length
    let r := drainQueue agent s
    (r.1, r.2, before - r.1.message_queue.length)

/-- Model of `CommBridge._notify_status_change`: fire `on_status_change`
when the two statuses differ (the callback is assumed registered). -/
def notifyStatusChange (old new : Str) : List BridgeEvent :=
  if old ≠ new then [BridgeEvent.statusChange old new] else []

/-- One iteration of the `CommBridge._heartbeat_loop` body of
`custom_terminal.py`, given the probe result `reachable`
(`agent.is_ollama_running()`): on a reachable probe reset the failure
counter, run the Disconnected → Reconnecting → drain path when the
previous state was Disconnected, and finish in Connected; on an
unreachable probe bump the failure counter and transition to
Disconnected, notifying only if the state actually changed. -/
def heartbeatStep (agent : Nat → ChatOutcome) (reachable : Bool) (s : BridgeState) :
    BridgeState × List BridgeEvent :=
  let old := s.status
  if reachable then
    let s1 := { s with consecutive_failures := 0 }
    let p :=
      if old = DISCONNECTED then
        let s2 := { s1 with status := RECONNECTING }
        let evs1 := notifyStatusChange old RECONNECTING
        let r := drainQueue agent s2
        (r.1, evs1 ++ r.2)
      else (s1, ([] : List BridgeEvent))
    let s4 := { p.1 with status := CONNECTED }
    let evs3 := if old ≠ CONNECTED then notifyStatusChange old CONNECTED else []
    (s4, p.2 ++ evs3)
  else
    let s1 := { s with
      consecutive_failures := s.consecutive_failures + 1
      status := DISCONNECTED }
    (s1, if old ≠ DISCONNECTED then notifyStatusChange old DISCONNECTED else [])

/-- Predicate picking out `on_message_delivered` firings. -/
def isDeliveredEvent : BridgeEvent → Bool
  | BridgeEvent.messageDelivered _ _ => true
  | _ => false

/-- Predicate picking out `on_message_failed` firings. -/
def isFailedEvent : BridgeEvent → Bool
  | BridgeEvent.messageFailed _ _ => true
  | _ => false

/-- Predicate picking out `on_status_change` firings. -/
def isStatusChangeEvent : BridgeEvent → Bool
  | BridgeEvent.statusChange _ _ => true
  | _ => false

/-- A sequence of `send_message` calls issued against the bridge, each
with no per-message callback (models the claim's "sequence of
send_message calls"). -/
def sendQueuedSeq (agent : Nat → ChatOutcome) (s : BridgeState) : List Str → BridgeState
  | [] => s
  | p :: ps => sendQueuedSeq agent (sendMessage agent s p none).1 ps

/-- A chat oracle whose every call succeeds with the reply `"pong"`. -/
def agentAlwaysOk : Nat → ChatOutcome := fun _ => ChatOutcome.ok ("pong".toList)

/-- A chat oracle whose every call returns a reply with
`agent.last_error` set (the Agent's own error signal). -/
def agentAlwaysErr : Nat → ChatOutcome := fun _ => ChatOutcome.err ("r".toList) ("boom".toList)

/-- A freshly connected bridge with empty queue and zeroed counters. -/
def bridgeConnected0 : BridgeState := ⟨CONNECTED, 0, 0, 0, [], 0⟩

/-- A disconnected bridge with empty queue and some accumulated failures. -/
def bridgeDisc0 : BridgeState := ⟨DISCONNECTED, 3, 0, 0, [], 0⟩

/-- A disconnected bridge holding one queued message. -/
def bridgeDisc1 : BridgeState :=
  ⟨DISCONNECTED, 2, 0, 0, [⟨"hello".toList, none⟩], 0⟩

/-- A reconnecting bridge holding the three queued messages A, B, C. -/
def bridgeQueueABC : BridgeState :=
  ⟨RECONNECTING, 0, 0, 0,
    [⟨"A".toList, none⟩, ⟨"B".toList, none⟩, ⟨"C".toList, none⟩], 0⟩

/-- The entry callback firings of a dispatch contain no
`on_message_delivered` firing. -/
theorem cbEvent_countP_delivered (cb : Option Nat) (r e : Option Str) :
    (cbEvent cb r e).countP isDeliveredEvent = 0 := by
  cases cb <;> simp [cbEvent, List.countP, List.countP.go, isDeliveredEvent]

/-- The entry callback firings of a dispatch contain no
`on_message_failed` firing. -/
theorem cbEvent_countP_failed (cb : Option Nat) (r e : Option Str) :
    (cbEvent cb r e).countP isFailedEvent = 0 := by
  cases cb <;> simp [cbEvent, List.countP, List.countP.go, isFailedEvent]

/-- Accounting of the drain loop: it never fires `on_message_failed`,
fires `on_message_delivered` once per delivered entry, and the delivered
count plus the remaining queue length is the original queue length. -/
theorem drainGo_spec (agent : Nat → ChatOutcome) :
    ∀ (q : List QueueEntry) (k : Nat), q.length ≤ 50 →
      (drainGo agent q k).2.2.1.countP isFailedEvent = 0 ∧
      (drainGo agent q k).2.2.1.countP isDeliveredEvent = (drainGo agent q k).1 ∧
      (drainGo agent q k).1 + (drainGo agent q k).2.1.length = q.length := by
  intro q
  induction q with
  | nil => intro k _; simp [drainGo]
  | cons e rest ih =>
    intro k hlen
    have hrest : rest.length ≤ 50 := by simp at hlen; omega
    cases ho : agent k with
    | ok resp =>
      have h2 := ih (k + 1) hrest
      simp only [drainGo, ho]
      constructor
      · simp [List.countP_cons, isFailedEvent, cbEvent_countP_failed, h2.1]
      constructor
      · simp [List.countP_cons, List.countP_append, isDeliveredEvent,
          cbEvent_countP_delivered, h2.2.1]
      · simp only [List.length_cons]
        omega
    | err resp err =>
      simp only [drainGo, ho, pyDequeAppendLeft]
      have hno : ¬ (50 < rest.length + 1) := by simp at hlen; omega
      simp [hno, List.countP, List.countP.go]
    | exn err =>
      simp only [drainGo, ho, pyDequeAppendLeft]
      have hno : ¬ (50 < rest.length + 1) := by simp at hlen; omega
      simp [hno, List.countP, List.countP.go]

/-- The capacity-50 deque append never leaves more than 50 entries. -/
theorem pyDequeAppend_length_le (q : List QueueEntry) (e : QueueEntry) :
    (pyDequeAppend 50 q e).length ≤ 50 := by
  simp only [pyDequeAppend]
  by_cases hc : 50 < (q ++ [e]).length
  · rw [if_pos hc, List.length_drop]
    omega
  · rw [if_neg hc]
    omega

/-- Closed form of one unreachable-probe heartbeat iteration. -/
theorem heartbeat_fail_step (agent : Nat → ChatOutcome) (s2 : BridgeState) :
    heartbeatStep agent false s2 =
      ({ s2 with consecutive_failures := s2.consecutive_failures + 1, status := DISCONNECTED },
       if s2.status ≠ DISCONNECTED then notifyStatusChange s2.status DISCONNECTED else []) := rfl

/-- With `auto_trade` enabled, a trading mutation tool executes its
handler instead of raising (the carve-out path of `execute`). -/
theorem trade_buy_autotrade_executes (handlers : Str → List (Str × Str) → ToolResult) :
    executeRT handlers (mkToolRuntime true) ⟨"trade_buy".toList, [], []⟩ false =
      Except.ok (runToolHandler handlers (mkToolRuntime true) ⟨"trade_buy".toList, [], []⟩) := rfl

/-- The remainder returned by the fenced-block collector is a suffix of
its input (it starts at the closing fence line). -/
theorem collectBlock_suffix : ∀ ls : List Str, (collectBlock ls).2 <:+ ls := by
  intro ls
  induction ls with
  | nil => simp [collectBlock]
  | cons l t ih =>
    simp only [collectBlock]
    split
    · exact List.suffix_refl _
    · exact ih.trans (List.suffix_cons l t)

/-- Length bound for the fenced-block collector's remainder. -/
theorem collectBlock_length : ∀ ls : List Str, (collectBlock ls).2.length ≤ ls.length :=
  fun ls => (collectBlock_suffix ls).sublist.length_le

/-- A successful quoted-value match consumes at least the opening
quote: the remainder is strictly shorter (stated with an explicit
length bound for the induction). -/
theorem matchQuotedN_length (q : Char) :
    ∀ (n : Nat) (s : Str), s.length ≤ n →
      ∀ pr : Str × Str, matchQuoted q s = some pr → pr.2.length < s.length := by
  intro n
  induction n with
  | zero =>
    intro s hs pr h
    rw [List.length_eq_zero.mp (Nat.le_zero.mp hs)] at h
    exact Option.noConfusion h
  | succ n ih =>
    intro s hs pr h
    cases s with
    | nil => exact Option.noConfusion h
    | cons c s1 =>
      rw [matchQuoted.eq_def] at h
      simp only [] at h
      by_cases hq : c = q
      · rw [if_pos hq] at h
        cases h
        simp
      · rw [if_neg hq] at h
        by_cases hb : c = '\\'
        · rw [if_pos hb] at h
          cases s1 with
          | nil => exact Option.noConfusion h
          | cons d s2 =>
            simp only [] at h
            by_cases hd : d = '\n'
            · rw [if_pos hd] at h; exact Option.noConfusion h
            · rw [if_neg hd] at h
              cases hm : matchQuoted q s2 with
              | some pr2 =>
                rw [hm] at h
                cases h
                have hlt := ih s2 (by simp at hs; omega) pr2 hm
                simp only [List.length_cons]
                omega
              | none => rw [hm] at h; exact Option.noConfusion h
        · rw [if_neg hb] at h
          cases hm : matchQuoted q s1 with
          | some pr2 =>
            rw [hm] at h
            cases h
            have hlt := ih s1 (by simp at hs; omega) pr2 hm
            simp only [List.length_cons]
            omega
          | none => rw [hm] at h; exact Option.noConfusion h

/-- A successful quoted-value match leaves a strictly shorter remainder. -/
theorem matchQuoted_length (q : Char) (s : Str) :
    ∀ pr : Str × Str, matchQuoted q s = some pr → pr.2.length < s.length :=
  matchQuotedN_length q s.length s le_rfl

/-- A successful bareword match leaves a strictly shorter remainder. -/
theorem matchBare_length (s : Str) :
    ∀ pr : Str × Str, matchBare s = some pr → pr.2.length < s.length := by
  intro pr h
  simp only [matchBare] at h
  by_cases ht : s.takeWhile (fun c => !isPySpace c) = []
  · rw [if_pos ht] at h; exact Option.noConfusion h
  · rw [if_neg ht] at h
    cases h
    have h1 : 1 ≤ (s.takeWhile (fun c => !isPySpace c)).length := by
      cases hh : s.takeWhile (fun c => !isPySpace c) with
      | nil => exact absurd hh ht
      | cons a t => simp
    have h2 : (s.takeWhile (fun c => !isPySpace c)).length ≤ s.length :=
      (List.takeWhile_sublist _).length_le
    simp only [List.length_drop]
    omega

/-- A successful value match leaves a strictly shorter remainder. -/
theorem matchValue_length (s : Str) :
    ∀ pr : Str × Str, matchValue s = some pr → pr.2.length < s.length := by
  intro pr h
  cases s with
  | nil => exact Option.noConfusion h
  | cons c s4 =>
    simp only [matchValue] at h
    by_cases h1 : c = '"'
    · rw [if_pos h1] at h
      cases hm : matchQuoted '"' s4 with
      | some pr2 =>
        rw [hm] at h
        cases h
        have := matchQuoted_length '"' s4 _ hm
        simp only [List.length_cons]
        omega
      | none =>
        rw [hm] at h
        exact matchBare_length _ _ h
    · rw [if_neg h1] at h
      by_cases h2 : c = Char.ofNat 39
      · rw [if_pos h2] at h
        cases hm : matchQuoted (Char.ofNat 39) s4 with
        | some pr2 =>
          rw [hm] at h
          cases h
          have := matchQuoted_length (Char.ofNat 39) s4 _ hm
          simp only [List.length_cons]
          omega
        | none =>
          rw [hm] at h
          exact matchBare_length _ _ h
      · rw [if_neg h2] at h
        exact matchBare_length _ _ h

/-- A successful key=value match leaves a strictly shorter remainder,
so the regex scanning loop makes progress. -/
theorem matchAt_length (s : Str) :
    ∀ m : Str × Str × Str, matchAt s = some m → m.2.2.length < s.length := by
  intro m h
  simp only [matchAt] at h
  by_cases hk : s.takeWhile isWordChar = []
  · rw [if_pos hk] at h; exact Option.noConfusion h
  · rw [if_neg hk] at h
    have hk1 : 1 ≤ (s.takeWhile isWordChar).length := by
      cases hh : s.takeWhile isWordChar with
      | nil => exact absurd hh hk
      | cons a t => simp
    have hk2 : (s.takeWhile isWordChar).length ≤ s.length :=
      (List.takeWhile_sublist _).length_le
    have hd : ((s.drop (s.takeWhile isWordChar).length).dropWhile isPySpace).length ≤
        s.length - (s.takeWhile isWordChar).length := by
      calc ((s.drop (s.takeWhile isWordChar).length).dropWhile isPySpace).length
          ≤ (s.drop (s.takeWhile isWordChar).length).length :=
            (List.dropWhile_suffix _).sublist.length_le
        _ = s.length - (s.takeWhile isWordChar).length := List.length_drop _ _
    cases hs1 : (s.drop (s.takeWhile isWordChar).length).dropWhile isPySpace with
    | nil => rw [hs1] at h; exact Option.noConfusion h
    | cons c s2 =>
      rw [hs1] at h hd
      simp only [] at h
      by_cases he : c = '='
      · rw [if_pos he] at h
        cases hm : matchValue (s2.dropWhile isPySpace) with
        | some pr =>
          rw [hm] at h
          cases h
          have h3 := matchValue_length _ pr hm
          have h4 : (s2.dropWhile isPySpace).length ≤ s2.length :=
            (List.dropWhile_suffix _).sublist.length_le
          simp only [List.length_cons] at hd
          show pr.2.length < s.length
          omega
        | none => rw [hm] at h; exact Option.noConfusion h
      · rw [if_neg he] at h; exact Option.noConfusion h
/-- The regex scanning loop yields nothing on the empty string, at any fuel. -/
theorem findIterF_nil : ∀ f : Nat, findIterF f [] = [] := by
  intro f
  cases f <;> rfl

/-- Fuel-insensitivity of the regex scanning loop: any fuel of at least
the string length yields the same value, so the loop of `_parse_params`
terminates with a well-defined result on every input. -/
theorem findIterF_fuel :
    ∀ (f1 f2 : Nat) (s : Str), s.length ≤ f1 → s.length ≤ f2 →
      findIterF f1 s = findIterF f2 s := by
  intro f1
  induction f1 with
  | zero =>
    intro f2 s h1 h2
    rw [List.length_eq_zero.mp (Nat.le_zero.mp h1)]
    rw [findIterF_nil, findIterF_nil]
  | succ n ih =>
    intro f2 s h1 h2
    cases f2 with
    | zero =>
      rw [List.length_eq_zero.mp (Nat.le_zero.mp h2)]
      rw [findIterF_nil, findIterF_nil]
    | succ m =>
      simp only [findIterF]
      cases hm : matchAt s with
      | some mt =>
        simp only []
        have hlt := matchAt_length s mt hm
        rw [ih m mt.2.2 (by omega) (by omega)]
      | none =>
        simp only []
        cases s with
        | nil => rfl
        | cons c t =>
          simp only []
          exact ih m t (by simp at h1; omega) (by simp at h2; omega)

/-- The line-scanning loop yields no calls on an empty line list, at any fuel. -/
theorem parseLoopF_nil : ∀ f : Nat, parseLoopF f [] = [] := by
  intro f
  cases f <;> rfl

/-- Fuel-insensitivity of the line-scanning loop: any fuel of at least
the number of lines yields the same value, so `parse_tool_calls`
terminates with a well-defined result on every input. -/
theorem parseLoopF_fuel :
    ∀ (f1 f2 : Nat) (ls : List Str), ls.length ≤ f1 → ls.length ≤ f2 →
      parseLoopF f1 ls = parseLoopF f2 ls := by
  intro f1
  induction f1 with
  | zero =>
    intro f2 ls h1 h2
    rw [List.length_eq_zero.mp (Nat.le_zero.mp h1)]
    rw [parseLoopF_nil, parseLoopF_nil]
  | succ n ih =>
    intro f2 ls h1 h2
    cases f2 with
    | zero =>
      rw [List.length_eq_zero.mp (Nat.le_zero.mp h2)]
      rw [parseLoopF_nil, parseLoopF_nil]
    | succ m =>
      cases ls with
      | nil => rfl
      | cons l rest =>
        simp only [parseLoopF]
        simp only [List.length_cons] at h1 h2
        split
        · split
          · exact ih m rest (by omega) (by omega)
          · cases rest with
            | nil => rw [parseLoopF_nil, parseLoopF_nil]
            | cons next rest2 =>
              simp only [List.length_cons] at h1 h2
              simp only []
              split
              · have hcb := collectBlock_length rest2
                rw [ih m ((collectBlock rest2).2.drop 1)
                  (by simp only [List.length_drop]; omega)
                  (by simp only [List.length_drop]; omega)]
              · rw [ih m (next :: rest2) (by simp only [List.length_cons]; omega)
                  (by simp only [List.length_cons]; omega)]
        · exact ih m rest (by omega) (by omega)

/-- Source order: the raw directive lines of the returned calls form a
sublist (in order) of the stripped input lines. -/
theorem parseLoopF_raw_sublist :
    ∀ (f : Nat) (ls : List Str),
      ((parseLoopF f ls).map ToolCall.raw).Sublist (ls.map pyStrip) := by
  intro f
  induction f with
  | zero =>
    intro ls
    simp [parseLoopF]
  | succ n ih =>
    intro ls
    cases ls with
    | nil => simp [parseLoopF]
    | cons l rest =>
      simp only [parseLoopF, List.map_cons]
      split
      · split
        · exact (ih rest).trans (List.sublist_cons_self _ _)
        · cases rest with
          | nil =>
            simp only [parseLoopF_nil, List.map_cons, List.map_nil]
            exact List.Sublist.cons₂ _ (List.nil_sublist _)
          | cons next rest2 =>
            simp only []
            split
            · refine List.Sublist.cons₂ _ ?_
              refine (ih _).trans ?_
              have hsub : ((collectBlock rest2).2.drop 1).Sublist (next :: rest2) :=
                ((List.drop_sublist _ _).trans
                  (collectBlock_suffix rest2).sublist).trans (List.sublist_cons_self _ _)
              simpa using hsub.map pyStrip
            · refine List.Sublist.cons₂ _ ?_
              simpa using (ih (next :: rest2))
      · exact (ih rest).trans (List.sublist_cons_self _ _)

/-- takeWhile over a list all of whose elements satisfy the predicate. -/
theorem takeWhile_all {p : Char → Bool} :
    ∀ xs : Str, (∀ x ∈ xs, p x = true) → xs.takeWhile p = xs := by
  intro xs h
  induction xs with
  | nil => rfl
  | cons c t ih =>
    rw [List.takeWhile_cons, h c (by simp)]
    simp [ih (fun x hx => h x (by simp [hx]))]

/-- takeWhile distributes over an append whose left part wholly
satisfies the predicate. -/
theorem takeWhile_append_all {p : Char → Bool} :
    ∀ xs ys : Str, (∀ x ∈ xs, p x = true) →
      (xs ++ ys).takeWhile p = xs ++ ys.takeWhile p := by
  intro xs ys h
  induction xs with
  | nil => rfl
  | cons c t ih =>
    rw [List.cons_append, List.takeWhile_cons, h c (by simp)]
    simp [ih (fun x hx => h x (by simp [hx]))]

/-- dropWhile skips an appended prefix wholly satisfying the predicate. -/
theorem dropWhile_append_all {p : Char → Bool} :
    ∀ xs ys : Str, (∀ x ∈ xs, p x = true) →
      (xs ++ ys).dropWhile p = ys.dropWhile p := by
  intro xs ys h
  induction xs with
  | nil => rfl
  | cons c t ih =>
    rw [List.cons_append, List.dropWhile_cons, h c (by simp)]
    simp [ih (fun x hx => h x (by simp [hx]))]

/-- Splitting on newlines after prepending newline-free text only
extends the first piece. -/
theorem pySplitNL_append_head :
    ∀ (a b : Str) (h2 : Str) (t : List Str), (∀ c ∈ a, ¬ c = '\n') →
      pySplitNL b = h2 :: t → pySplitNL (a ++ b) = (a ++ h2) :: t := by
  intro a
  induction a with
  | nil => intro b h2 t _ hb; simpa using hb
  | cons c a2 ih =>
    intro b h2 t hc hb
    rw [List.cons_append]
    simp only [pySplitNL]
    rw [if_neg (hc c (by simp))]
    rw [ih b h2 t (fun x hx => hc x (by simp [hx])) hb]
    simp

/-- Stripping is the identity on a string with non-whitespace first and
last characters. -/
theorem pyStrip_shape (c1 : Char) (mid : Str) (c2 : Char)
    (h1 : isPySpace c1 = false) (h2 : isPySpace c2 = false) :
    pyStrip (c1 :: (mid ++ [c2])) = c1 :: (mid ++ [c2]) := by
  simp only [pyStrip, List.dropWhile_cons, h1]
  simp only [Bool.false_eq_true, if_false, List.reverse_cons, List.append_assoc,
    List.reverse_append, List.reverse_cons, List.reverse_nil, List.nil_append,
    List.cons_append, List.dropWhile_cons, h2]
  simp

/-- Python `split(None, 1)` on a whitespace-free token followed by a
space and a remainder with some non-whitespace content. -/
theorem pySplitNone1_name (nm r : Str) (hne : nm ≠ [])
    (hns : ∀ c ∈ nm, isPySpace c = false)
    (hrne : r.dropWhile isPySpace ≠ []) :
    pySplitNone1 (nm ++ ' ' :: r) = [nm, r.dropWhile isPySpace] := by
  obtain ⟨c, t, rfl⟩ : ∃ c t, nm = c :: t := by
    cases nm with
    | nil => exact absurd rfl hne
    | cons c t => exact ⟨c, t, rfl⟩
  simp only [pySplitNone1]
  have hd1 : ((c :: t) ++ ' ' :: r).dropWhile isPySpace = (c :: t) ++ ' ' :: r := by
    rw [List.cons_append, List.dropWhile_cons, hns c (by simp)]
    simp
  rw [hd1]
  have htk : ((c :: t) ++ ' ' :: r).takeWhile (fun ch => !isPySpace ch) = c :: t := by
    rw [takeWhile_append_all _ _ (fun x hx => by simp [hns x hx])]
    rw [List.takeWhile_cons]
    simp [isPySpace]
  have hdr : (((c :: t) ++ ' ' :: r).dropWhile (fun ch => !isPySpace ch)).dropWhile isPySpace =
      r.dropWhile isPySpace := by
    rw [dropWhile_append_all _ _ (fun x hx => by simp [hns x hx])]
    have hin : (' ' :: r).dropWhile (fun ch => !isPySpace ch) = ' ' :: r := by
      rw [List.dropWhile_cons]
      simp [isPySpace]
    rw [hin, List.dropWhile_cons]
    simp [isPySpace]
  rw [if_neg (by simp), htk, hdr, if_neg hrne]

theorem pyStartsWith_append (a b : Str) : pyStartsWith a (a ++ b) = true := by
  induction a with
  | nil => simp [pyStartsWith, List.isPrefixOf]
  | cons c t ih => simpa [pyStartsWith, List.isPrefixOf] using ih
/-- Splitting a newline-free string on newlines yields the string itself. -/
theorem pySplitNL_no_nl : ∀ l : Str, (∀ c ∈ l, ¬ c = '\n') → pySplitNL l = [l] := by
  intro l h
  induction l with
  | nil => rfl
  | cons c t ih =>
    simp only [pySplitNL]
    rw [if_neg (h c (by simp))]
    rw [ih (fun x hx => h x (by simp [hx]))]

/-- Splitting on newlines inverts joining with newlines, for a nonempty
list of newline-free lines. -/
theorem pySplitNL_joinNL : ∀ ls : List Str, ls ≠ [] →
    (∀ l ∈ ls, ∀ c ∈ l, ¬ c = '\n') → pySplitNL (joinNL ls) = ls := by
  intro ls
  induction ls with
  | nil => intro h; exact absurd rfl h
  | cons l t ih =>
    intro _ h
    cases t with
    | nil => exact pySplitNL_no_nl l (h l (by simp))
    | cons l2 t2 =>
      have htail : pySplitNL (joinNL (l2 :: t2)) = l2 :: t2 :=
        ih (List.cons_ne_nil _ _) (fun x hx => h x (by simp [hx]))
      have hnl : pySplitNL ('\n' :: joinNL (l2 :: t2)) = [] :: (l2 :: t2) := by
        simp [pySplitNL, htail]
      simp only [joinNL]
      rw [pySplitNL_append_head l ('\n' :: joinNL (l2 :: t2)) [] (l2 :: t2)
        (h l (by simp)) hnl]
      simp

/-- The quoted-value matcher consumes a quote- and backslash-free body
verbatim up to the closing quote. -/
theorem matchQuoted_no_escape : ∀ (v rest : Str),
    (∀ c ∈ v, ¬ c = '"' ∧ ¬ c = '\\') →
    matchQuoted '"' (v ++ '"' :: rest) = some (v, rest) := by
  intro v
  induction v with
  | nil =>
    intro rest _
    rw [List.nil_append, matchQuoted.eq_def]
    simp
  | cons c t ih =>
    intro rest h
    rw [List.cons_append, matchQuoted.eq_def]
    simp only []
    rw [if_neg (h c (by simp)).1, if_neg (h c (by simp)).2]
    rw [ih rest (fun x hx => h x (by simp [hx]))]

/-- The fenced-block collector gathers exactly the lines before the
closing fence when none of them starts a fence. -/
theorem collectBlock_no_fence : ∀ (bls rest : List Str),
    (∀ bl ∈ bls, pyStartsWith ("```".toList) (pyStrip bl) = false) →
    collectBlock (bls ++ ("```".toList) :: rest) = (bls, ("```".toList) :: rest) := by
  intro bls rest h
  have hf : pyStartsWith ("```".toList) (pyStrip ("```".toList)) = true := by decide
  induction bls with
  | nil =>
    rw [List.nil_append]
    show (if pyStartsWith ("```".toList) (pyStrip ("```".toList)) = true then
        (([] : List Str), ("```".toList) :: rest)
      else (("```".toList) :: (collectBlock rest).1, (collectBlock rest).2)) =
      (([] : List Str), ("```".toList) :: rest)
    rw [if_pos hf]
  | cons b t ih =>
    rw [List.cons_append]
    show (if pyStartsWith ("```".toList) (pyStrip b) = true then
        (([] : List Str), b :: (t ++ ("```".toList) :: rest))
      else (b :: (collectBlock (t ++ ("```".toList) :: rest)).1,
        (collectBlock (t ++ ("```".toList) :: rest)).2)) =
      (b :: t, ("```".toList) :: rest)
    rw [if_neg (by rw [h b (by simp)]; simp), ih (fun x hx => h x (by simp [hx]))]

/-- The value alternation on a double-quoted, escape-free value. -/
theorem matchValue_quoted (v rest : Str)
    (hv : ∀ c ∈ v, ¬ c = '"' ∧ ¬ c = '\\') :
    matchValue ('"' :: (v ++ '"' :: rest)) = some (v, rest) := by
  simp [matchValue, matchQuoted_no_escape v rest hv]

/-- The parameter text `content="<v>"` (v quote- and backslash-free)
parses to the one-entry map binding `content`. -/
theorem parseParams_single_quoted (v : Str)
    (hv : ∀ c ∈ v, ¬ c = '"' ∧ ¬ c = '\\') :
    pyParseParams (("content=\"".toList ++ v) ++ ("\"".toList)) =
      [("content".toList, unescapeValue v)] := by
  have e5 : (("content=\"".toList ++ v) ++ ("\"".toList) : Str) =
      "content".toList ++ ('=' :: '"' :: (v ++ '"' :: [])) := by
    rw [show ("content=\"".toList : Str) = "content".toList ++ ['=', '"'] from by decide]
    simp [List.append_assoc]
  have hkey : (("content=\"".toList ++ v) ++ ("\"".toList)).takeWhile isWordChar =
      "content".toList := by
    rw [e5, takeWhile_append_all _ _ (by decide)]
    rw [List.takeWhile_cons, show isWordChar '=' = false from by decide]
    simp
  have hma : matchAt (("content=\"".toList ++ v) ++ ("\"".toList)) =
      some ("content".toList, v, []) := by
    simp only [matchAt, hkey]
    simp [List.dropWhile_cons, show isPySpace '=' = false from by decide,
      show isPySpace '"' = false from by decide, matchValue_quoted v ([] : Str) hv]
  have hne : (("content=\"".toList ++ v) ++ ("\"".toList) : Str) ≠ [] := by
    rw [e5]
    simp
  simp only [pyParseParams, if_neg hne]
  simp only [findIterF, hma, show matchAt ([] : Str) = none from rfl]
  simp [dictInsert]

/-- Claim C1: for every registered tool whose tier is Confirm (and, for
the trading mutation tools, with `auto_trade` disabled), the claim says
`execute(call, skip_confirm=False)` returns a ToolResult with
`success=False`, `needs_confirm=True` naming the tool and params, and
never invokes the handler.  The code instead raises `TypeError` there:
the `ToolResult(False, "", tool_name=..., needs_confirm=True, output=...)`
constructor call passes `output` both positionally and by keyword.  This
theorem evaluates the model at every such call: for every handler map
and params the result is the modelled TypeError (so indeed no handler
runs, but no ToolResult is returned either). -/
theorem confirm_tier_execute_raises (handlers : Str → List (Str × Str) → ToolResult)
    (rt : ToolRuntimeState) (nm : Str) (ps : List (Str × Str)) (raw : Str)
    (hat : rt.auto_trade = false) (hmem : nm ∈ TOOLS_KEYS)
    (htier : lookupD TOOL_TIERS nm TIER_CONFIRM = TIER_CONFIRM) :
    executeRT handlers rt ⟨nm, ps, raw⟩ false =
      Except.error (PyErr.typeError TYPE_ERROR_DUP_OUTPUT) := by
  have hc : TOOLS_KEYS.contains nm = true := List.elem_eq_true_of_mem hmem
  simp only [executeRT, hc, Bool.not_true, Bool.false_eq_true, if_false]
  rw [if_pos (And.intro htier trivial)]
  by_cases h : pyStartsWith ("trade_".toList) nm ∧ nm ∈ TRADE_MUTATIONS
  · rw [if_pos h, if_pos hat]
  · rw [if_neg h]

/-- Claim C2: the spec says `execute` / `execute_all` never raise (with
handlers that return rather than throw).  Evaluating the code at the
failing input `ToolCall(name="file_delete")` with `skip_confirm=False`:
both raise the `TypeError` coming from the duplicate `output` argument
of the confirmation-needed `ToolResult` constructor call, for every
handler map. -/
theorem executor_confirm_tier_raises (handlers : Str → List (Str × Str) → ToolResult) :
    executeRT handlers (mkToolRuntime false) ⟨"file_delete".toList, [], []⟩ false =
      Except.error (PyErr.typeError TYPE_ERROR_DUP_OUTPUT) ∧
    executeAllRT handlers (mkToolRuntime false) [⟨"file_delete".toList, [], []⟩] false =
      Except.error (PyErr.typeError TYPE_ERROR_DUP_OUTPUT) := ⟨rfl, rfl⟩

/-- Claim C3, counterexample: a live dispatch whose `agent.chat` reports
an error increments `total_messages_sent` (at launch) and
`total_messages_failed` (on completion), so the sum grows by 2 — not by
exactly 1 as claimed. -/
theorem live_dispatch_failure_counts_two :
    ¬ ((sendMessage agentAlwaysErr bridgeConnected0 ("p".toList) none).1.total_messages_sent +
        (sendMessage agentAlwaysErr bridgeConnected0 ("p".toList) none).1.total_messages_failed =
       bridgeConnected0.total_messages_sent + bridgeConnected0.total_messages_failed + 1) := by
  decide

/-- Claim C3, amended: per dispatch, `on_message_delivered` and
`on_message_failed` together fire at most once (exactly once for a live
dispatch; a drain attempt fires at most `on_message_delivered`, once per
removed entry, and never `on_message_failed`).  A live dispatch
increments `total_messages_sent` by 1 at launch and additionally
increments `total_messages_failed` by 1 when the chat fails, so
`sent + failed` grows by 1 on success and 2 on failure; a drain changes
neither counter. -/
theorem dispatch_callback_counter_accounting :
    (∀ (agent : Nat → ChatOutcome) (s : BridgeState) (p : Str) (cb : Option Nat),
      s.status ≠ DISCONNECTED →
        ((sendMessage agent s p cb).2.1.countP isDeliveredEvent +
          (sendMessage agent s p cb).2.1.countP isFailedEvent = 1) ∧
        (sendMessage agent s p cb).1.total_messages_sent = s.total_messages_sent + 1 ∧
        (∀ resp, agent s.chat_calls = ChatOutcome.ok resp →
          (sendMessage agent s p cb).1.total_messages_failed = s.total_messages_failed) ∧
        ((∀ resp, ¬ agent s.chat_calls = ChatOutcome.ok resp) →
          (sendMessage agent s p cb).1.total_messages_failed = s.total_messages_failed + 1)) ∧
    (∀ (agent : Nat → ChatOutcome) (s : BridgeState), s.message_queue.length ≤ 50 →
        (drainQueue agent s).1.total_messages_sent = s.total_messages_sent ∧
        (drainQueue agent s).1.total_messages_failed = s.total_messages_failed ∧
        (drainQueue agent s).2.countP isFailedEvent = 0 ∧
        (drainQueue agent s).2.countP isDeliveredEvent =
          s.message_queue.length - (drainQueue agent s).1.message_queue.length) := by
  constructor
  · intro agent s p cb hs
    simp only [sendMessage, if_neg hs]
    refine ⟨?_, ?_, ?_, ?_⟩
    · cases ho : agent s.chat_calls <;>
        simp [dispatch, ho, List.countP_cons, cbEvent_countP_delivered, cbEvent_countP_failed,
          isDeliveredEvent, isFailedEvent]
    · cases ho : agent s.chat_calls <;> simp [dispatch, ho]
    · intro resp h2
      simp [dispatch, h2]
    · intro hno
      cases ho : agent s.chat_calls with
      | ok resp => exact absurd ho (hno resp)
      | err resp e => simp [dispatch, ho]
      | exn e => simp [dispatch, ho]
  · intro agent s hlen
    have h := drainGo_spec agent s.message_queue s.chat_calls hlen
    refine ⟨rfl, rfl, ?_, ?_⟩
    · show ((drainGo agent s.message_queue s.chat_calls).2.2.1 ++
        (if 0 < (drainGo agent s.message_queue s.chat_calls).1 then
          [BridgeEvent.queueDrained (drainGo agent s.message_queue s.chat_calls).1]
         else [])).countP isFailedEvent = 0
      rw [List.countP_append, h.1]
      by_cases hd : 0 < (drainGo agent s.message_queue s.chat_calls).1 <;>
        simp [hd, isFailedEvent]
    · show ((drainGo agent s.message_queue s.chat_calls).2.2.1 ++
        (if 0 < (drainGo agent s.message_queue s.chat_calls).1 then
          [BridgeEvent.queueDrained (drainGo agent s.message_queue s.chat_calls).1]
         else [])).countP isDeliveredEvent =
        s.message_queue.length - (drainGo agent s.message_queue s.chat_calls).2.1.length
      rw [List.countP_append, h.2.1]
      have h3 := h.2.2
      by_cases hd : 0 < (drainGo agent s.message_queue s.chat_calls).1 <;>
        simp [hd, isDeliveredEvent] <;> omega

/-- Claim C4: while Disconnected, every sequence of `send_message`
calls keeps the queue at no more than 50 entries, and a send against a
full queue of 50 evicts the oldest entry and appends the new one at the
back (the 50 newest are retained in FIFO order). -/
theorem queue_bound_and_eviction :
    ∀ (agent : Nat → ChatOutcome) (s : BridgeState) (ps : List Str),
      s.status = DISCONNECTED → s.message_queue.length ≤ 50 →
      ((sendQueuedSeq agent s ps).message_queue.length ≤ 50 ∧
       (sendQueuedSeq agent s ps).status = DISCONNECTED) ∧
      (s.message_queue.length = 50 → ∀ (p : Str) (cb : Option Nat),
        (sendMessage agent s p cb).1.message_queue =
          s.message_queue.tail ++ [⟨p, cb⟩]) := by
  intro agent s ps hst hlen
  constructor
  · induction ps generalizing s with
    | nil => exact ⟨hlen, hst⟩
    | cons p ps ih =>
      simp only [sendQueuedSeq, sendMessage, if_pos hst]
      exact ih _ hst (pyDequeAppend_length_le _ _)
  · intro h50 p cb
    simp only [sendMessage, if_pos hst, pyDequeAppend]
    have hc : 50 < (s.message_queue ++ [(⟨p, cb⟩ : QueueEntry)]).length := by
      simp [h50]
    rw [if_pos hc]
    simp only [List.length_append, h50, List.length_cons, List.length_nil]
    rw [List.drop_append_of_le_length (by omega)]
    simp [List.drop_one]

/-- Claim C5: when delivery of the front entry fails, `retry_queue`
leaves the queue exactly as it was (the failed entry back at the front,
nothing skipped, reordered or lost), returns 0, fires no callback, and
makes exactly one `agent.chat` call — entries behind the failed one are
not attempted. -/
theorem drain_stops_at_first_failure :
    ∀ (agent : Nat → ChatOutcome) (s : BridgeState) (e : QueueEntry) (q' : List QueueEntry),
      s.message_queue = e :: q' → s.message_queue.length ≤ 50 →
      (∀ resp, ¬ agent s.chat_calls = ChatOutcome.ok resp) →
      retryQueue agent s = ({ s with chat_calls := s.chat_calls + 1 }, ([] : List BridgeEvent), 0) := by
  intro agent s e q' hq hlen hfail
  have hne : s.message_queue ≠ [] := by rw [hq]; exact List.cons_ne_nil _ _
  have hd : drainGo agent s.message_queue s.chat_calls =
      (0, s.message_queue, [], s.chat_calls + 1) := by
    rw [hq]
    rw [hq] at hlen
    cases ho : agent s.chat_calls with
    | ok resp => exact absurd ho (hfail resp)
    | err resp er =>
      simp only [drainGo, ho, pyDequeAppendLeft]
      rw [if_neg (by simp at hlen ⊢; omega)]
    | exn er =>
      simp only [drainGo, ho, pyDequeAppendLeft]
      rw [if_neg (by simp at hlen ⊢; omega)]
  simp only [retryQueue, if_neg hne, drainQueue, hd]
  simp

/-- Claim C6: from Connected, a failed probe yields Disconnected with
exactly one `on_status_change(Connected, Disconnected)` and bumps
`consecutive_failures`; a second consecutive failed probe fires no
callback at all and bumps the counter again. -/
theorem failed_probe_transition_idempotent :
    ∀ (agent : Nat → ChatOutcome) (s : BridgeState), s.status = CONNECTED →
      (heartbeatStep agent false s).2 = [BridgeEvent.statusChange CONNECTED DISCONNECTED] ∧
      (heartbeatStep agent false s).1.status = DISCONNECTED ∧
      (heartbeatStep agent false s).1.consecutive_failures = s.consecutive_failures + 1 ∧
      (heartbeatStep agent false (heartbeatStep agent false s).1).2 = [] ∧
      (heartbeatStep agent false (heartbeatStep agent false s).1).1.consecutive_failures =
        s.consecutive_failures + 2 := by
  intro agent s hst
  rw [heartbeat_fail_step, heartbeat_fail_step, hst]
  refine ⟨?_, rfl, rfl, ?_, rfl⟩
  · show (if CONNECTED ≠ DISCONNECTED then notifyStatusChange CONNECTED DISCONNECTED
        else []) = [BridgeEvent.statusChange CONNECTED DISCONNECTED]
    decide
  · show (if DISCONNECTED ≠ DISCONNECTED then notifyStatusChange DISCONNECTED DISCONNECTED
        else []) = []
    decide

/-- Claim C7, counterexample: on a successful probe from Disconnected,
the second `on_status_change` fires with arguments
`(Disconnected, Connected)` — not `(Reconnecting, Connected)` as the
claim states, because `_heartbeat_loop` passes `old_status` (the
pre-probe state) to `_notify_status_change`. -/
theorem reconnect_second_status_change_args :
    (heartbeatStep agentAlwaysOk true bridgeDisc0).2 =
      [BridgeEvent.statusChange DISCONNECTED RECONNECTING,
       BridgeEvent.statusChange DISCONNECTED CONNECTED] ∧
    (heartbeatStep agentAlwaysOk true bridgeDisc0).2 ≠
      [BridgeEvent.statusChange DISCONNECTED RECONNECTING,
       BridgeEvent.statusChange RECONNECTING CONNECTED] := by
  decide

/-- Claim C7, amended: on a successful probe from Disconnected the
bridge fires `on_status_change(Disconnected, Reconnecting)`, then runs
one queue drain (with its events), then sets the state to Connected and
fires a second `on_status_change` whose arguments are
`(Disconnected, Connected)` (the old argument is the pre-probe status,
not Reconnecting); the state ends Connected regardless of whether the
drain made progress, with the failure counter reset. -/
theorem reconnect_event_sequence :
    ∀ (agent : Nat → ChatOutcome) (s : BridgeState), s.status = DISCONNECTED →
      (heartbeatStep agent true s).2 =
        BridgeEvent.statusChange DISCONNECTED RECONNECTING ::
          ((drainQueue agent { s with consecutive_failures := 0, status := RECONNECTING }).2 ++
           [BridgeEvent.statusChange DISCONNECTED CONNECTED]) ∧
      (heartbeatStep agent true s).1.status = CONNECTED ∧
      (heartbeatStep agent true s).1.consecutive_failures = 0 := by
  intro agent s hst
  have e1 : notifyStatusChange DISCONNECTED RECONNECTING =
      [BridgeEvent.statusChange DISCONNECTED RECONNECTING] := by decide
  have e2 : notifyStatusChange DISCONNECTED CONNECTED =
      [BridgeEvent.statusChange DISCONNECTED CONNECTED] := by decide
  simp only [heartbeatStep, hst, eq_self_iff_true, ite_true]
  rw [if_pos (show DISCONNECTED ≠ CONNECTED from by decide), e1, e2]
  exact ⟨by simp, by trivial, by trivial⟩

/-- Claim C8: parsing the single line
`@tool web_search query="rust vs go"` yields exactly one ToolCall named
`web_search` whose params are the one-entry map from `query` to
`rust vs go`. -/
theorem parse_web_search_round_trip :
    parse_tool_calls ("@tool web_search query=\"rust vs go\"".toList) =
      [ToolCall.mk ("web_search".toList) [("query".toList, "rust vs go".toList)]
        ("@tool web_search query=\"rust vs go\"".toList)] := by
  decide

/-- Claim C9: for every input the parser is total and orderly —
(1) the line-scanning loop is fuel-insensitive at or above its actual
fuel (its recursion terminates with a well-defined finite result, never
hitting the fuel floor); (2) likewise the parameter-regex scanning loop
of `_parse_params`; (3) the returned calls appear in source order (their
raw directive lines form an ordered sublist of the stripped input
lines); and on concrete malformed inputs — empty input, a malformed
directive plus an unmatched parameter fragment, and an unterminated
fenced block — parsing returns finite lists, silently skipping the
malformed pieces rather than surfacing an error. -/
theorem parse_total_ordered_and_tolerant :
    (∀ (text : Str) (extra : Nat),
        parseLoopF ((pySplitNL text).length + extra) (pySplitNL text) =
          parse_tool_calls text) ∧
    (∀ (paramStr : Str) (extra : Nat),
        findIterF (paramStr.length + 1 + extra) paramStr =
          findIterF (paramStr.length + 1) paramStr) ∧
    (∀ text : Str,
        ((parse_tool_calls text).map ToolCall.raw).Sublist
          ((pySplitNL text).map pyStrip)) ∧
    parse_tool_calls ([] : Str) = [] ∧
    parse_tool_calls ("@toolx nope\n@tool x ??? ok=1".toList) =
      [ToolCall.mk ("x".toList) [("ok".toList, "1".toList)] ("@tool x ??? ok=1".toList)] ∧
    parse_tool_calls ("@tool w\n```\nabc".toList) =
      [ToolCall.mk ("w".toList) [("content".toList, "abc".toList)] ("@tool w".toList)] := by
  refine ⟨?_, ?_, ?_, by decide, by decide, by decide⟩
  · intro text extra
    simp only [parse_tool_calls]
    exact parseLoopF_fuel _ _ _ (by omega) le_rfl
  · intro paramStr extra
    exact findIterF_fuel _ _ _ (by omega) (by omega)
  · intro text
    exact parseLoopF_raw_sublist _ _

/-- Claim C10: for every whitespace-free tool name (registered or not),
every inline `content="<v>"` parameter value (free of quotes, backslashes
and newlines), and every nonempty fenced block (newline-free lines, none
opening a fence), a directive line carrying the inline content parameter
immediately followed by that fenced block yields a single ToolCall whose
`params["content"]` is exactly the block lines joined verbatim with
newlines (`joinNL blockLines`) — the block silently overrides the inline
parameter value. -/
theorem content_block_overrides_inline :
    ∀ (nm v : Str) (blockLines : List Str),
      nm ≠ [] → (∀ c ∈ nm, isPySpace c = false) →
      (∀ c ∈ v, ¬ c = '"' ∧ ¬ c = '\\' ∧ ¬ c = '\n') →
      blockLines ≠ [] →
      (∀ bl ∈ blockLines,
        (∀ c ∈ bl, ¬ c = '\n') ∧ pyStartsWith ("```".toList) (pyStrip bl) = false) →
      parse_tool_calls
        (joinNL ((("@tool ".toList ++ nm) ++ ((" content=\"".toList ++ v) ++ ("\"".toList))) ::
          ("```".toList) :: (blockLines ++ [("```".toList)]))) =
        [ToolCall.mk nm [("content".toList, joinNL blockLines)]
          (("@tool ".toList ++ nm) ++ ((" content=\"".toList ++ v) ++ ("\"".toList)))] := by
  intro nm v bls hne hns hv hbne hbl
  have hnmnl : ∀ c ∈ nm, ¬ c = '\n' := by
    intro c hc he
    have hsp := hns c hc
    rw [he] at hsp
    exact absurd hsp (by decide)
  have hA_nl : ∀ c ∈ ((("@tool ".toList ++ nm) ++
      ((" content=\"".toList ++ v) ++ ("\"".toList))) : Str), ¬ c = '\n' := by
    intro c hc
    rcases List.mem_append.mp hc with h1 | h1
    · rcases List.mem_append.mp h1 with h2 | h2
      · have hstatic : ∀ x ∈ ("@tool ".toList : Str), ¬ x = '\n' := by decide
        exact hstatic c h2
      · exact hnmnl c h2
    · rcases List.mem_append.mp h1 with h2 | h2
      · rcases List.mem_append.mp h2 with h3 | h3
        · have hstatic : ∀ x ∈ (" content=\"".toList : Str), ¬ x = '\n' := by decide
          exact hstatic c h3
        · exact (hv c h3).2.2
      · have hstatic : ∀ x ∈ ("\"".toList : Str), ¬ x = '\n' := by decide
        exact hstatic c h2
  have hlines : pySplitNL (joinNL ((("@tool ".toList ++ nm) ++
        ((" content=\"".toList ++ v) ++ ("\"".toList))) ::
        ("```".toList) :: (bls ++ [("```".toList)]))) =
      (("@tool ".toList ++ nm) ++ ((" content=\"".toList ++ v) ++ ("\"".toList))) ::
        ("```".toList) :: (bls ++ [("```".toList)]) := by
    refine pySplitNL_joinNL _ (List.cons_ne_nil _ _) ?_
    intro l hl
    rcases List.mem_cons.mp hl with rfl | hl2
    · exact hA_nl
    rcases List.mem_cons.mp hl2 with rfl | hl3
    · decide
    rcases List.mem_append.mp hl3 with h4 | h4
    · exact (hbl l h4).1
    · rcases List.mem_singleton.mp h4 with rfl
      decide
  have hshape : ((("@tool ".toList ++ nm) ++
      ((" content=\"".toList ++ v) ++ ("\"".toList))) : Str) =
      '@' :: ((("tool ".toList ++ nm) ++ (" content=\"".toList ++ v)) ++ ['"']) := by
    rw [show ("@tool ".toList : Str) = '@' :: ("tool ".toList) from by decide,
      show ("\"".toList : Str) = ['"'] from by decide]
    simp [List.cons_append, List.append_assoc]
  have hstrip : pyStrip ((("@tool ".toList ++ nm) ++
      ((" content=\"".toList ++ v) ++ ("\"".toList))) : Str) =
      (("@tool ".toList ++ nm) ++ ((" content=\"".toList ++ v) ++ ("\"".toList))) := by
    rw [hshape]
    exact pyStrip_shape _ _ _ (by decide) (by decide)
  have hdir : pyStartsWith ("@tool ".toList)
      ((("@tool ".toList ++ nm) ++ ((" content=\"".toList ++ v) ++ ("\"".toList)))) = true := by
    rw [List.append_assoc]
    exact pyStartsWith_append _ _
  have hdrop : ((("@tool ".toList ++ nm) ++
      ((" content=\"".toList ++ v) ++ ("\"".toList))) : Str).drop 6 =
      nm ++ ((" content=\"".toList ++ v) ++ ("\"".toList)) := by
    rw [List.append_assoc, show (6 : Nat) = ("@tool ".toList : Str).length from by decide]
    exact List.drop_left _ _
  have hstrip2 : pyStrip (nm ++ ((" content=\"".toList ++ v) ++ ("\"".toList))) =
      nm ++ ((" content=\"".toList ++ v) ++ ("\"".toList)) := by
    obtain ⟨c, t, rfl⟩ : ∃ c t, nm = c :: t := by
      cases nm with
      | nil => exact absurd rfl hne
      | cons c t => exact ⟨c, t, rfl⟩
    have hsh2 : ((c :: t) ++ ((" content=\"".toList ++ v) ++ ("\"".toList)) : Str) =
        c :: ((t ++ (" content=\"".toList ++ v)) ++ ['"']) := by
      rw [show ("\"".toList : Str) = ['"'] from by decide]
      simp [List.cons_append, List.append_assoc]
    rw [hsh2]
    exact pyStrip_shape _ _ _ (hns c (by simp)) (by decide)
  have hrd : (((("content=\"".toList ++ v) ++ ("\"".toList)) : Str)).dropWhile isPySpace =
      ("content=\"".toList ++ v) ++ ("\"".toList) := by
    rw [show ("content=\"".toList : Str) = 'c' :: ("ontent=\"".toList) from by decide]
    simp only [List.cons_append, List.dropWhile_cons,
      show isPySpace 'c' = false from by decide]
    simp
  have hsplit : pySplitNone1 (nm ++ ((" content=\"".toList ++ v) ++ ("\"".toList))) =
      [nm, ("content=\"".toList ++ v) ++ ("\"".toList)] := by
    have harr : (nm ++ ((" content=\"".toList ++ v) ++ ("\"".toList)) : Str) =
        nm ++ ' ' :: (("content=\"".toList ++ v) ++ ("\"".toList)) := by
      rw [show (" content=\"".toList : Str) = ' ' :: ("content=\"".toList) from by decide]
      simp [List.cons_append, List.append_assoc]
    rw [harr, pySplitNone1_name nm _ hne hns (by
      rw [hrd, show ("content=\"".toList : Str) = 'c' :: ("ontent=\"".toList) from by decide]
      simp), hrd]
  have hfence : pyStartsWith ("```".toList) (pyStrip ("```".toList)) = true := by decide
  simp only [parse_tool_calls, hlines]
  rw [show ((("@tool ".toList ++ nm) ++ ((" content=\"".toList ++ v) ++ ("\"".toList))) ::
      ("```".toList) :: (bls ++ [("```".toList)]) : List Str).length = (bls.length + 2) + 1 from by
    simp [List.length_append]]
  simp only [parseLoopF]
  rw [hstrip, if_pos hdir, hdrop, hstrip2, hsplit]
  simp only []
  rw [if_pos hfence]
  rw [collectBlock_no_fence bls [] (fun bl hb => (hbl bl hb).2)]
  rw [parseParams_single_quoted v (fun c hc => ⟨(hv c hc).1, (hv c hc).2.1⟩)]
  simp [dictInsert, parseLoopF_nil]

/-- Witness for C1 at the concrete input `file_delete` (Confirm tier)
with `auto_trade` disabled and a handler map that would succeed if it
were ever invoked. -/
theorem confirm_tier_execute_raises_witness :
    ((mkToolRuntime false).auto_trade = false ∧
      ("file_delete".toList : Str) ∈ TOOLS_KEYS ∧
      lookupD TOOL_TIERS ("file_delete".toList) TIER_CONFIRM = TIER_CONFIRM) ∧
    executeRT (fun _ _ => ⟨true, [], none, [], false⟩) (mkToolRuntime false)
        ⟨"file_delete".toList, [("path".toList, "x".toList)], []⟩ false =
      Except.error (PyErr.typeError TYPE_ERROR_DUP_OUTPUT) :=
  ⟨⟨rfl, by decide, by decide⟩,
   confirm_tier_execute_raises _ _ _ _ _ rfl (by decide) (by decide)⟩

/-- Witness for the amended C3: a concrete failed live dispatch fires
the delivered/failed callbacks exactly once in total, and a concrete
drain attempt leaves `total_messages_sent` unchanged. -/
theorem dispatch_callback_counter_accounting_witness :
    (bridgeConnected0.status ≠ DISCONNECTED ∧
      (sendMessage agentAlwaysErr bridgeConnected0 ("p".toList) none).2.1.countP
          isDeliveredEvent +
        (sendMessage agentAlwaysErr bridgeConnected0 ("p".toList) none).2.1.countP
          isFailedEvent = 1) ∧
    (bridgeDisc1.message_queue.length ≤ 50 ∧
      (drainQueue agentAlwaysErr bridgeDisc1).1.total_messages_sent =
        bridgeDisc1.total_messages_sent) :=
  ⟨⟨by decide,
    (dispatch_callback_counter_accounting.1 agentAlwaysErr bridgeConnected0
      ("p".toList) none (by decide)).1⟩,
   ⟨by decide,
    (dispatch_callback_counter_accounting.2 agentAlwaysErr bridgeDisc1 (by decide)).1⟩⟩

/-- Witness for C4 at a concrete disconnected bridge and a two-message
send sequence. -/
theorem queue_bound_and_eviction_witness :
    (bridgeDisc0.status = DISCONNECTED ∧ bridgeDisc0.message_queue.length ≤ 50) ∧
    (sendQueuedSeq agentAlwaysOk bridgeDisc0
      ["a".toList, "b".toList]).message_queue.length ≤ 50 :=
  ⟨⟨rfl, by decide⟩,
   ((queue_bound_and_eviction agentAlwaysOk bridgeDisc0 ["a".toList, "b".toList]
      rfl (by decide)).1).1⟩

/-- Witness for C5 at the concrete queue `[A, B, C]` with an agent whose
chat reports an error. -/
theorem drain_stops_at_first_failure_witness :
    (bridgeQueueABC.message_queue =
        ⟨"A".toList, none⟩ :: [⟨"B".toList, none⟩, ⟨"C".toList, none⟩] ∧
      bridgeQueueABC.message_queue.length ≤ 50) ∧
    retryQueue agentAlwaysErr bridgeQueueABC =
      ({ bridgeQueueABC with chat_calls := bridgeQueueABC.chat_calls + 1 },
       ([] : List BridgeEvent), 0) :=
  ⟨⟨rfl, by decide⟩,
   drain_stops_at_first_failure agentAlwaysErr bridgeQueueABC _ _ rfl (by decide)
     (fun resp h => ChatOutcome.noConfusion h)⟩

/-- Witness for C6 at a concrete freshly connected bridge. -/
theorem failed_probe_transition_idempotent_witness :
    bridgeConnected0.status = CONNECTED ∧
    (heartbeatStep agentAlwaysOk false bridgeConnected0).2 =
      [BridgeEvent.statusChange CONNECTED DISCONNECTED] :=
  ⟨rfl, (failed_probe_transition_idempotent agentAlwaysOk bridgeConnected0 rfl).1⟩

/-- Witness for the amended C7 at a concrete disconnected bridge with a
queued message. -/
theorem reconnect_event_sequence_witness :
    bridgeDisc1.status = DISCONNECTED ∧
    (heartbeatStep agentAlwaysOk true bridgeDisc1).1.status = CONNECTED :=
  ⟨rfl, (reconnect_event_sequence agentAlwaysOk bridgeDisc1 rfl).2.1⟩

/-- Witness for C10 at the concrete unregistered tool name `my_tool`,
the inline value `in line`, and the two-line block
`["from", " block "]`, whose verbatim newline-join (spacing preserved)
becomes `params["content"]`. -/
theorem content_block_overrides_inline_witness :
    (("my_tool".toList : Str) ≠ [] ∧
      (∀ c ∈ ("my_tool".toList : Str), isPySpace c = false) ∧
      (∀ c ∈ ("in line".toList : Str), ¬ c = '"' ∧ ¬ c = '\\' ∧ ¬ c = '\n') ∧
      (["from".toList, " block ".toList] : List Str) ≠ [] ∧
      (∀ bl ∈ (["from".toList, " block ".toList] : List Str),
        (∀ c ∈ bl, ¬ c = '\n') ∧ pyStartsWith ("```".toList) (pyStrip bl) = false)) ∧
    parse_tool_calls
      (joinNL ((("@tool ".toList ++ "my_tool".toList) ++
          ((" content=\"".toList ++ "in line".toList) ++ ("\"".toList))) ::
        ("```".toList) :: (["from".toList, " block ".toList] ++ [("```".toList)]))) =
      [ToolCall.mk ("my_tool".toList)
        [("content".toList, joinNL ["from".toList, " block ".toList])]
        (("@tool ".toList ++ "my_tool".toList) ++
          ((" content=\"".toList ++ "in line".toList) ++ ("\"".toList)))] :=
  ⟨⟨by decide, by decide, by decide, by decide, by decide⟩,
   content_block_overrides_inline ("my_tool".toList) ("in line".toList)
     ["from".toList, " block ".toList] (by decide) (by decide) (by decide) (by decide)
     (by decide)⟩
